import Mathlib

/-!
Verification development for the solana-sniper-bot helper fragment:
a shallow embedding of `src/liquidity/liquidity.ts` and
`src/constants/constants.ts`, with theorems about the holdings-enrichment
routine, the price-normalization policy, pool-key assembly and
configuration loading.

External collaborators (the Solana web3 connection, the Moralis price
oracle, the SPL account-layout decoder, and the JavaScript numeric
parsers `Number` / `parseFloat`) are modelled as explicit function
parameters; prices are modelled as rationals, and the JavaScript `NaN`
outcome of a failed numeric parse is modelled as `none` in `Option Rat`.
-/

namespace SniperBot

/-- A Solana public key, identified by its base58 rendering. -/
structure PublicKey where
  b58 : String
deriving DecidableEq, Repr

/-- `PublicKey.toBase58()` from `@solana/web3.js`. -/
def PublicKey.toBase58 (p : PublicKey) : String := p.b58

/-- `PublicKey.default` from `@solana/web3.js`: the all-zero key. -/
def PublicKey.defaultKey : PublicKey := ⟨"11111111111111111111111111111111"⟩

/-- A big-number balance (`BN` from bn.js); raw token amounts are unsigned. -/
structure BN where
  val : Nat
deriving DecidableEq, Repr

/-- `BN.toNumber()`. -/
def BN.toNumber (n : BN) : Nat := n.val

/-- `MAINNET_PROGRAM_ID.AmmV4` from the Raydium SDK. -/
def RAYDIUM_LIQUIDITY_PROGRAM_ID_V4 : PublicKey :=
  ⟨"675kPX9MHTjS2zt1qfr1NYHuzeLXfQM9H24wFSUt1Mp8"⟩

/-- `MAINNET_PROGRAM_ID.OPENBOOK_MARKET` from the Raydium SDK. -/
def OPENBOOK_PROGRAM_ID : PublicKey :=
  ⟨"srmqPvymJeFKQ4zGQed1GFppgkRHL9kaELCbyksJtPX"⟩

/-- `TOKEN_PROGRAM_ID` from `@solana/spl-token`. -/
def TOKEN_PROGRAM_ID : PublicKey :=
  ⟨"TokenkegQfeZyiNwAJbNbGKPFXCWuBvf9Ss623VQ5DA"⟩

/-- `MinimalMarketLayoutV3` (`src/market`): the three order-book accounts
decoded by `MINIMAL_MARKET_STATE_LAYOUT_V3`. -/
structure MinimalMarketLayoutV3 where
  eventQueue : PublicKey
  bids : PublicKey
  asks : PublicKey
deriving DecidableEq, Repr

/-- The fields of the Raydium SDK's `LiquidityStateV4` that
`createPoolKeys` reads. -/
structure LiquidityStateV4 where
  baseMint : PublicKey
  quoteMint : PublicKey
  lpMint : PublicKey
  baseDecimal : BN
  quoteDecimal : BN
  openOrders : PublicKey
  targetOrders : PublicKey
  baseVault : PublicKey
  quoteVault : PublicKey
  marketProgramId : PublicKey
  marketId : PublicKey
  withdrawQueue : PublicKey
  lpVault : PublicKey
deriving DecidableEq, Repr

/-- The Raydium SDK's `LiquidityPoolKeys` output shape. -/
structure LiquidityPoolKeys where
  id : PublicKey
  baseMint : PublicKey
  quoteMint : PublicKey
  lpMint : PublicKey
  baseDecimals : Nat
  quoteDecimals : Nat
  lpDecimals : Nat
  version : Nat
  programId : PublicKey
  authority : PublicKey
  openOrders : PublicKey
  targetOrders : PublicKey
  baseVault : PublicKey
  quoteVault : PublicKey
  marketVersion : Nat
  marketProgramId : PublicKey
  marketId : PublicKey
  marketAuthority : PublicKey
  marketBaseVault : PublicKey
  marketQuoteVault : PublicKey
  marketBids : PublicKey
  marketAsks : PublicKey
  marketEventQueue : PublicKey
  withdrawQueue : PublicKey
  lpVault : PublicKey
  lookupTableAccount : PublicKey
deriving DecidableEq, Repr

/-- `createPoolKeys` (`src/liquidity/liquidity.ts` lines 26-64).
The SDK's deterministic authority derivations
`Liquidity.getAssociatedAuthority({programId}).publicKey` and
`Market.getAssociatedAuthority({programId, marketId}).publicKey`
are external and passed in as function parameters. -/
def createPoolKeys
    (liquidityGetAssociatedAuthority : PublicKey → PublicKey)
    (marketGetAssociatedAuthority : PublicKey → PublicKey → PublicKey)
    (id : PublicKey)
    (accountData : LiquidityStateV4)
    (minimalMarketLayoutV3 : MinimalMarketLayoutV3) : LiquidityPoolKeys :=
  { id := id
    baseMint := accountData.baseMint
    quoteMint := accountData.quoteMint
    lpMint := accountData.lpMint
    baseDecimals := accountData.baseDecimal.toNumber
    quoteDecimals := accountData.quoteDecimal.toNumber
    lpDecimals := 5
    version := 4
    programId := RAYDIUM_LIQUIDITY_PROGRAM_ID_V4
    authority := liquidityGetAssociatedAuthority RAYDIUM_LIQUIDITY_PROGRAM_ID_V4
    openOrders := accountData.openOrders
    targetOrders := accountData.targetOrders
    baseVault := accountData.baseVault
    quoteVault := accountData.quoteVault
    marketVersion := 3
    marketProgramId := accountData.marketProgramId
    marketId := accountData.marketId
    marketAuthority :=
      marketGetAssociatedAuthority accountData.marketProgramId accountData.marketId
    marketBaseVault := accountData.baseVault
    marketQuoteVault := accountData.quoteVault
    marketBids := minimalMarketLayoutV3.bids
    marketAsks := minimalMarketLayoutV3.asks
    marketEventQueue := minimalMarketLayoutV3.eventQueue
    withdrawQueue := accountData.withdrawQueue
    lpVault := accountData.lpVault
    lookupTableAccount := PublicKey.defaultKey }

/-- The Moralis SDK surface used by `fetchCoinPrice`: `Moralis.start`
(may reject) and `Moralis.SolApi.token.getTokenPrice` (may reject, or
return a response whose `raw.usdPrice` we model as a rational). -/
structure MoralisClient where
  start : String → Except Unit Unit
  getTokenPrice : String → String → Except Unit Rat

/-- The body of the `try` block of `fetchCoinPrice` up to reading
`response.raw.usdPrice`: start the client with the API key, then query
the price for `mintAddress` on the `mainnet` network. -/
def tryFetch (moralis : MoralisClient) (mintAddress apiKey : String) :
    Except Unit Rat :=
  moralis.start apiKey >>= fun _ => moralis.getTokenPrice "mainnet" mintAddress

/-- `fetchCoinPrice` (`src/liquidity/liquidity.ts` lines 96-117): any
exception is caught and yields `undefined` (`none`); a price of exactly
`0` is normalized to `undefined`; any other price is returned as-is. -/
def fetchCoinPrice (moralis : MoralisClient) (mintAddress apiKey : String) :
    Option Rat :=
  match tryFetch moralis mintAddress apiKey with
  | .error _ => none
  | .ok price => if price = 0 then none else some price

/-- The decoded SPL token-account fields read by `getTokenAccounts`
(`SPL_ACCOUNT_LAYOUT.decode` output). -/
structure SplAccountInfo where
  mint : PublicKey
  amount : BN
deriving DecidableEq, Repr

/-- A raw account record as returned inside `tokenResp.value`:
`{ pubkey, account: { owner, data } }`. -/
structure RawAccountData where
  owner : PublicKey
  data : List Nat
deriving DecidableEq, Repr

structure RawTokenAccount where
  pubkey : PublicKey
  account : RawAccountData
deriving DecidableEq, Repr

/-- `TokenAccountWithAmountAndPrice` (`src/liquidity/liquidity.ts`
line 19): a token account together with its raw amount and an optional
USD price. -/
structure TokenAccountWithAmountAndPrice where
  pubkey : PublicKey
  programId : PublicKey
  accountInfo : SplAccountInfo
  price : Option Rat
  amount : BN
deriving DecidableEq, Repr

/-- The ledger connection surface used by `getTokenAccounts`:
`connection.getTokenAccountsByOwner(owner, {programId}, commitment)`,
which either rejects or yields a list of raw records. -/
structure Connection where
  getTokenAccountsByOwner :
    PublicKey → PublicKey → Option String → Except Unit (List RawTokenAccount)

/-- The `for` loop body of `getTokenAccounts` (lines 79-93), iterated
over the records in order.  Returns the accumulated `accounts` list
together with the trace of mint addresses passed to `fetchCoinPrice`,
one oracle attempt per record, sequentially. -/
def enrichLoop (moralis : MoralisClient) (decode : List Nat → SplAccountInfo)
    (apiKey : String) :
    List RawTokenAccount → List TokenAccountWithAmountAndPrice × List String
  | [] => ([], [])
  | r :: rest =>
    let accountInfo := decode r.account.data
    let coinPrice := fetchCoinPrice moralis accountInfo.mint.toBase58 apiKey
    let tail := enrichLoop moralis decode apiKey rest
    (⟨r.pubkey, r.account.owner, accountInfo, coinPrice, accountInfo.amount⟩ :: tail.1,
     accountInfo.mint.toBase58 :: tail.2)

/-- The holding built from one record by the loop body. -/
def enrichRecord (moralis : MoralisClient) (decode : List Nat → SplAccountInfo)
    (apiKey : String) (r : RawTokenAccount) : TokenAccountWithAmountAndPrice :=
  let accountInfo := decode r.account.data
  { pubkey := r.pubkey
    programId := r.account.owner
    accountInfo := accountInfo
    price := fetchCoinPrice moralis accountInfo.mint.toBase58 apiKey
    amount := accountInfo.amount }

/-- `getTokenAccounts` (`src/liquidity/liquidity.ts` lines 66-94): one
awaited ledger query, then the sequential enrichment loop.  A ledger
failure propagates; otherwise the accumulated list is returned. -/
def getTokenAccounts (moralis : MoralisClient)
    (decode : List Nat → SplAccountInfo) (apiKey : String)
    (connection : Connection) (owner : PublicKey)
    (commitment : Option String) :
    Except Unit (List TokenAccountWithAmountAndPrice) :=
  match connection.getTokenAccountsByOwner owner TOKEN_PROGRAM_ID commitment with
  | .error e => .error e
  | .ok records => .ok (enrichLoop moralis decode apiKey records).1

/-- The trace of oracle calls (mint addresses passed to
`fetchCoinPrice`) made by a `getTokenAccounts` run. -/
def getTokenAccountsOracleCalls (moralis : MoralisClient)
    (decode : List Nat → SplAccountInfo) (apiKey : String)
    (connection : Connection) (owner : PublicKey)
    (commitment : Option String) : List String :=
  match connection.getTokenAccountsByOwner owner TOKEN_PROGRAM_ID commitment with
  | .error _ => []
  | .ok records => (enrichLoop moralis decode apiKey records).2

/-- A process environment: a partial map from variable names to values. -/
def Env : Type := String → Option String

/-- A process termination with an exit code. -/
structure ProcessExit where
  code : Nat
deriving DecidableEq, Repr

/-- Modelled from the spec: `retrieveEnvVariable` lives in `src/utils`,
which is not part of this fragment.  Per §4.3 of the spec: for each named
setting, read a value from the environment; if required and absent, log
an error and terminate the process immediately (non-recoverable). -/
def retrieveEnvVariable (env : Env) (name : String) : Except ProcessExit String :=
  match env name with
  | some v => .ok v
  | none => .error ⟨1⟩

/-- `possibleCommitments` (`src/constants/constants.ts` line 4). -/
def possibleCommitments : List String := ["processed", "confirmed", "finalized"]

/-- The constants exported by `src/constants/constants.ts`.  The two
numeric fields come from the JavaScript parsers `Number` / `parseFloat`;
a `NaN` result is modelled as `none`. -/
structure Constants where
  NETWORK : String
  COMMITMENT_LEVEL : String
  RPC_ENDPOINT : String
  RPC_WEBSOCKET_ENDPOINT : String
  LOG_LEVEL : String
  CHECK_IF_MINT_IS_RENOUNCED : Bool
  MAX_SELL_RETRIES : Option Rat
  PRIVATE_KEY : String
  QUOTE_MINT : String
  QUOTE_AMOUNT : String
  MIN_POOL_SIZE : String
  MAX_POOL_SIZE : String
  ONE_TOKEN_AT_A_TIME : Bool
  SELL_AFTER_GAIN_PERCENTAGE : Option Rat
deriving DecidableEq, Repr

/-- Module-load evaluation of `src/constants/constants.ts`, in source
order: `COMMITMENT_LEVEL` is read first and checked against
`possibleCommitments` (violation calls `process.exit(1)`), then the
remaining variables are read; `jsNumber` and `jsParseFloat` are the
external JavaScript `Number` and `parseFloat` conversions, with `none`
standing for `NaN`. -/
def loadConstants (jsNumber jsParseFloat : String → Option Rat) (env : Env) :
    Except ProcessExit Constants := do
  let commitmentLevel ← retrieveEnvVariable env "COMMITMENT_LEVEL"
  if commitmentLevel ∈ possibleCommitments then
    pure ()
  else
    throw ⟨1⟩
  let rpcEndpoint ← retrieveEnvVariable env "RPC_ENDPOINT"
  let rpcWebsocketEndpoint ← retrieveEnvVariable env "RPC_WEBSOCKET_ENDPOINT"
  let logLevel ← retrieveEnvVariable env "LOG_LEVEL"
  let checkIfMintIsRenounced ← retrieveEnvVariable env "CHECK_IF_MINT_IS_RENOUNCED"
  let maxSellRetries ← retrieveEnvVariable env "MAX_SELL_RETRIES"
  let privateKey ← retrieveEnvVariable env "PRIVATE_KEY"
  let quoteMint ← retrieveEnvVariable env "QUOTE_MINT"
  let quoteAmount ← retrieveEnvVariable env "QUOTE_AMOUNT"
  let minPoolSize ← retrieveEnvVariable env "MIN_POOL_SIZE"
  let maxPoolSize ← retrieveEnvVariable env "MAX_POOL_SIZE"
  let oneTokenAtATime ← retrieveEnvVariable env "ONE_TOKEN_AT_A_TIME"
  let sellAfterGainPercentage ← retrieveEnvVariable env "SELL_AFTER_GAIN_PERCENTAGE"
  pure
    { NETWORK := "mainnet-beta"
      COMMITMENT_LEVEL := commitmentLevel
      RPC_ENDPOINT := rpcEndpoint
      RPC_WEBSOCKET_ENDPOINT := rpcWebsocketEndpoint
      LOG_LEVEL := logLevel
      CHECK_IF_MINT_IS_RENOUNCED := checkIfMintIsRenounced == "true"
      MAX_SELL_RETRIES := jsNumber maxSellRetries
      PRIVATE_KEY := privateKey
      QUOTE_MINT := quoteMint
      QUOTE_AMOUNT := quoteAmount
      MIN_POOL_SIZE := minPoolSize
      MAX_POOL_SIZE := maxPoolSize
      ONE_TOKEN_AT_A_TIME := oneTokenAtATime == "true"
      SELL_AFTER_GAIN_PERCENTAGE := jsParseFloat sellAfterGainPercentage }

/-- The environment variables `constants.ts` requires to be present. -/
def requiredVars : List String :=
  ["COMMITMENT_LEVEL", "RPC_ENDPOINT", "RPC_WEBSOCKET_ENDPOINT", "LOG_LEVEL",
   "CHECK_IF_MINT_IS_RENOUNCED", "MAX_SELL_RETRIES", "PRIVATE_KEY",
   "QUOTE_MINT", "QUOTE_AMOUNT", "MIN_POOL_SIZE", "MAX_POOL_SIZE",
   "ONE_TOKEN_AT_A_TIME", "SELL_AFTER_GAIN_PERCENTAGE"]

/-- Every required variable is present in the environment. -/
def allRequiredPresent (env : Env) : Prop :=
  ∀ n ∈ requiredVars, (env n).isSome

theorem enrichLoop_eq (moralis : MoralisClient)
    (decode : List Nat → SplAccountInfo) (apiKey : String)
    (records : List RawTokenAccount) :
    enrichLoop moralis decode apiKey records =
      (records.map (enrichRecord moralis decode apiKey),
       records.map (fun r => (decode r.account.data).mint.toBase58)) := by
  induction records with
  | nil => rfl
  | cons r rest ih => simp [enrichLoop, enrichRecord, ih]

theorem except_ok_bind {ε α β : Type} (a : α) (f : α → Except ε β) :
    (Except.ok a >>= f : Except ε β) = f a := rfl

theorem except_error_bind {ε α β : Type} (e : ε) (f : α → Except ε β) :
    (Except.error e >>= f : Except ε β) = Except.error e := rfl

theorem loadConstants_eval (jsNumber jsParseFloat : String → Option Rat)
    (env : Env) (c r w l ch m p q qa minp maxp o s : String)
    (h0 : env "COMMITMENT_LEVEL" = some c)
    (hc : c ∈ possibleCommitments)
    (h1 : env "RPC_ENDPOINT" = some r)
    (h2 : env "RPC_WEBSOCKET_ENDPOINT" = some w)
    (h3 : env "LOG_LEVEL" = some l)
    (h4 : env "CHECK_IF_MINT_IS_RENOUNCED" = some ch)
    (h5 : env "MAX_SELL_RETRIES" = some m)
    (h6 : env "PRIVATE_KEY" = some p)
    (h7 : env "QUOTE_MINT" = some q)
    (h8 : env "QUOTE_AMOUNT" = some qa)
    (h9 : env "MIN_POOL_SIZE" = some minp)
    (h10 : env "MAX_POOL_SIZE" = some maxp)
    (h11 : env "ONE_TOKEN_AT_A_TIME" = some o)
    (h12 : env "SELL_AFTER_GAIN_PERCENTAGE" = some s) :
    loadConstants jsNumber jsParseFloat env =
      .ok
        { NETWORK := "mainnet-beta"
          COMMITMENT_LEVEL := c
          RPC_ENDPOINT := r
          RPC_WEBSOCKET_ENDPOINT := w
          LOG_LEVEL := l
          CHECK_IF_MINT_IS_RENOUNCED := ch == "true"
          MAX_SELL_RETRIES := jsNumber m
          PRIVATE_KEY := p
          QUOTE_MINT := q
          QUOTE_AMOUNT := qa
          MIN_POOL_SIZE := minp
          MAX_POOL_SIZE := maxp
          ONE_TOKEN_AT_A_TIME := o == "true"
          SELL_AFTER_GAIN_PERCENTAGE := jsParseFloat s } := by
  simp [loadConstants, retrieveEnvVariable, h0, hc, h1, h2, h3, h4, h5, h6,
    h7, h8, h9, h10, h11, h12, except_ok_bind]

theorem fetchCoinPrice_ne_some_zero (moralis : MoralisClient)
    (mintAddress apiKey : String) :
    fetchCoinPrice moralis mintAddress apiKey ≠ some 0 := by
  unfold fetchCoinPrice
  cases htf : tryFetch moralis mintAddress apiKey with
  | error e => simp
  | ok p =>
    by_cases hp : p = 0 <;> simp [hp]

/-- A concrete oracle that succeeds with price 1/20 on every query. -/
def oracleOk : MoralisClient := ⟨fun _ => .ok (), fun _ _ => .ok (1 / 20)⟩

/-- A concrete oracle whose price query rejects. -/
def oracleThrow : MoralisClient := ⟨fun _ => .ok (), fun _ _ => .error ()⟩

/-- A concrete oracle that returns price 0 on every query. -/
def oracleZero : MoralisClient := ⟨fun _ => .ok (), fun _ _ => .ok 0⟩

/-- A concrete decoder mapping any byte list to mint `MintA`, amount 1000. -/
def decodeA : List Nat → SplAccountInfo := fun _ => ⟨⟨"MintA"⟩, ⟨1000⟩⟩

/-- One concrete raw record. -/
def recA : RawTokenAccount := ⟨⟨"Acct1"⟩, ⟨⟨"TokenProg"⟩, [0, 1]⟩⟩

/-- A connection returning exactly one record. -/
def connOne : Connection := ⟨fun _ _ _ => .ok [recA]⟩

/-- A connection returning zero records. -/
def connEmpty : Connection := ⟨fun _ _ _ => .ok []⟩

/-- C1: for every successful ledger response of length k,
`getTokenAccounts` returns exactly k holdings, one per record, in the
same order as the records — for every oracle, failing or not. -/
theorem getTokenAccounts_one_holding_per_record
    (moralis : MoralisClient) (decode : List Nat → SplAccountInfo)
    (apiKey : String) (connection : Connection) (owner : PublicKey)
    (commitment : Option String) (records : List RawTokenAccount)
    (h : connection.getTokenAccountsByOwner owner TOKEN_PROGRAM_ID commitment =
      Except.ok records) :
    ∃ accounts,
      getTokenAccounts moralis decode apiKey connection owner commitment =
        Except.ok accounts ∧
      accounts.length = records.length ∧
      ∀ (i : Nat) (r : RawTokenAccount), records[i]? = some r →
        accounts[i]? = some (enrichRecord moralis decode apiKey r) := by
  refine ⟨records.map (enrichRecord moralis decode apiKey), ?_, by simp, ?_⟩
  · simp [getTokenAccounts, h, enrichLoop_eq]
  · intro i r hr
    simp [List.getElem?_map, hr]

theorem getTokenAccounts_one_holding_per_record_witness :
    ∃ accounts,
      getTokenAccounts oracleThrow decodeA "key" connOne ⟨"Owner"⟩ none =
        Except.ok accounts ∧
      accounts.length = [recA].length ∧
      ∀ (i : Nat) (r : RawTokenAccount), [recA][i]? = some r →
        accounts[i]? = some (enrichRecord oracleThrow decodeA "key" r) :=
  getTokenAccounts_one_holding_per_record oracleThrow decodeA "key" connOne
    ⟨"Owner"⟩ none [recA] rfl

/-- C2: for every oracle attempt that rejects, the corresponding
holding's price is absent; `getTokenAccounts` fails exactly when the
ledger call fails, propagating that error unchanged, and succeeds
otherwise. -/
theorem getTokenAccounts_swallows_oracle_failures
    (moralis : MoralisClient) (decode : List Nat → SplAccountInfo)
    (apiKey : String) (connection : Connection) (owner : PublicKey)
    (commitment : Option String) :
    (∀ e, getTokenAccounts moralis decode apiKey connection owner commitment =
        Except.error e ↔
      connection.getTokenAccountsByOwner owner TOKEN_PROGRAM_ID commitment =
        Except.error e) ∧
    (∀ records,
      connection.getTokenAccountsByOwner owner TOKEN_PROGRAM_ID commitment =
        Except.ok records →
      getTokenAccounts moralis decode apiKey connection owner commitment =
        Except.ok (records.map (enrichRecord moralis decode apiKey)) ∧
      ∀ r ∈ records,
        tryFetch moralis (decode r.account.data).mint.toBase58 apiKey =
          Except.error () →
        (enrichRecord moralis decode apiKey r).price = none) := by
  constructor
  · intro e
    unfold getTokenAccounts
    cases hconn :
        connection.getTokenAccountsByOwner owner TOKEN_PROGRAM_ID commitment <;>
      simp
  · intro records hrec
    refine ⟨by simp [getTokenAccounts, hrec, enrichLoop_eq], ?_⟩
    intro r _ htf
    simp [enrichRecord, fetchCoinPrice, htf]

theorem getTokenAccounts_swallows_oracle_failures_witness :
    getTokenAccounts oracleThrow decodeA "key" connOne ⟨"Owner"⟩ none =
      Except.ok ([recA].map (enrichRecord oracleThrow decodeA "key")) ∧
    (enrichRecord oracleThrow decodeA "key" recA).price = none := by
  have h := (getTokenAccounts_swallows_oracle_failures oracleThrow decodeA "key"
    connOne ⟨"Owner"⟩ none).2 [recA] rfl
  exact ⟨h.1, h.2 recA (by simp) rfl⟩

/-- C4: an oracle response whose `usdPrice` is exactly 0 yields an
absent price from `fetchCoinPrice`, and the resulting holding carries an
absent price. -/
theorem fetchCoinPrice_zero_normalized_to_none
    (moralis : MoralisClient) (decode : List Nat → SplAccountInfo)
    (mintAddress apiKey : String)
    (h : tryFetch moralis mintAddress apiKey = Except.ok 0) :
    fetchCoinPrice moralis mintAddress apiKey = none ∧
    ∀ r : RawTokenAccount, (decode r.account.data).mint.toBase58 = mintAddress →
      (enrichRecord moralis decode apiKey r).price = none := by
  have hfc : fetchCoinPrice moralis mintAddress apiKey = none := by
    simp [fetchCoinPrice, h]
  refine ⟨hfc, ?_⟩
  intro r hm
  simp [enrichRecord, hm, hfc]

theorem fetchCoinPrice_zero_normalized_to_none_witness :
    fetchCoinPrice oracleZero "MintA" "key" = none ∧
    ∀ r : RawTokenAccount, (decodeA r.account.data).mint.toBase58 = "MintA" →
      (enrichRecord oracleZero decodeA "key" r).price = none :=
  fetchCoinPrice_zero_normalized_to_none oracleZero decodeA "MintA" "key" rfl

/-- C5: a positive oracle price `p` is attached exactly, with no
transformation, both by `fetchCoinPrice` and on the resulting holding. -/
theorem fetchCoinPrice_positive_exact
    (moralis : MoralisClient) (decode : List Nat → SplAccountInfo)
    (mintAddress apiKey : String) (p : Rat)
    (h : tryFetch moralis mintAddress apiKey = Except.ok p) (hp : 0 < p) :
    fetchCoinPrice moralis mintAddress apiKey = some p ∧
    ∀ r : RawTokenAccount, (decode r.account.data).mint.toBase58 = mintAddress →
      (enrichRecord moralis decode apiKey r).price = some p := by
  have hfc : fetchCoinPrice moralis mintAddress apiKey = some p := by
    simp [fetchCoinPrice, h, ne_of_gt hp]
  refine ⟨hfc, ?_⟩
  intro r hm
  simp [enrichRecord, hm, hfc]

theorem fetchCoinPrice_positive_exact_witness :
    fetchCoinPrice oracleOk "MintA" "key" = some (1 / 20) ∧
    ∀ r : RawTokenAccount, (decodeA r.account.data).mint.toBase58 = "MintA" →
      (enrichRecord oracleOk decodeA "key" r).price = some (1 / 20) :=
  fetchCoinPrice_positive_exact oracleOk decodeA "MintA" "key" (1 / 20) rfl
    (by norm_num)

/-- C8: a ledger response with zero records yields the empty holdings
list and an empty oracle-call trace. -/
theorem getTokenAccounts_empty_no_oracle_calls
    (moralis : MoralisClient) (decode : List Nat → SplAccountInfo)
    (apiKey : String) (connection : Connection) (owner : PublicKey)
    (commitment : Option String)
    (h : connection.getTokenAccountsByOwner owner TOKEN_PROGRAM_ID commitment =
      Except.ok []) :
    getTokenAccounts moralis decode apiKey connection owner commitment =
      Except.ok [] ∧
    getTokenAccountsOracleCalls moralis decode apiKey connection owner
      commitment = [] := by
  simp [getTokenAccounts, getTokenAccountsOracleCalls, h, enrichLoop]

theorem getTokenAccounts_empty_no_oracle_calls_witness :
    getTokenAccounts oracleOk decodeA "key" connEmpty ⟨"Owner"⟩ none =
      Except.ok [] ∧
    getTokenAccountsOracleCalls oracleOk decodeA "key" connEmpty ⟨"Owner"⟩
      none = [] :=
  getTokenAccounts_empty_no_oracle_calls oracleOk decodeA "key" connEmpty
    ⟨"Owner"⟩ none rfl

/-- A concrete oracle that returns the negative price -1. -/
def oracleNeg : MoralisClient := ⟨fun _ => .ok (), fun _ _ => .ok (-1)⟩

/-- C3 counterexample: with an oracle answering -1, `getTokenAccounts`
attaches the non-positive price -1 to the holding, so the price field is
neither strictly positive nor absent. -/
theorem getTokenAccounts_nonpositive_price_counterexample :
    getTokenAccounts oracleNeg decodeA "key" connOne ⟨"Owner"⟩ none =
      Except.ok
        [⟨⟨"Acct1"⟩, ⟨"TokenProg"⟩, ⟨⟨"MintA"⟩, ⟨1000⟩⟩, some (-1), ⟨1000⟩⟩] ∧
    ¬ (0 < (-1 : Rat)) := by
  constructor
  · simp [getTokenAccounts, connOne, enrichLoop, recA, decodeA, fetchCoinPrice,
      tryFetch, oracleNeg, PublicKey.toBase58, except_ok_bind]
  · norm_num

theorem getTokenAccounts_ok_iff (moralis : MoralisClient)
    (decode : List Nat → SplAccountInfo) (apiKey : String)
    (connection : Connection) (owner : PublicKey) (commitment : Option String)
    (accounts : List TokenAccountWithAmountAndPrice) :
    getTokenAccounts moralis decode apiKey connection owner commitment =
        Except.ok accounts ↔
      ∃ records,
        connection.getTokenAccountsByOwner owner TOKEN_PROGRAM_ID commitment =
          Except.ok records ∧
        accounts = records.map (enrichRecord moralis decode apiKey) := by
  unfold getTokenAccounts
  cases hconn :
      connection.getTokenAccountsByOwner owner TOKEN_PROGRAM_ID commitment <;>
    simp [enrichLoop_eq, eq_comm]

/-- C3 (amended): the price field of every holding produced by
`getTokenAccounts` is either a nonzero price or absent; a zero oracle
price is never attached. -/
theorem getTokenAccounts_price_never_zero
    (moralis : MoralisClient) (decode : List Nat → SplAccountInfo)
    (apiKey : String) (connection : Connection) (owner : PublicKey)
    (commitment : Option String)
    (accounts : List TokenAccountWithAmountAndPrice)
    (h : getTokenAccounts moralis decode apiKey connection owner commitment =
      Except.ok accounts) :
    ∀ a ∈ accounts, a.price ≠ some 0 := by
  intro a ha
  obtain ⟨records, hconn, rfl⟩ :=
    (getTokenAccounts_ok_iff moralis decode apiKey connection owner commitment
      accounts).mp h
  obtain ⟨r, _, hr⟩ := List.mem_map.mp ha
  rw [← hr]
  simpa [enrichRecord] using
    fetchCoinPrice_ne_some_zero moralis (decode r.account.data).mint.toBase58
      apiKey

theorem getTokenAccounts_price_never_zero_witness :
    (⟨⟨"Acct1"⟩, ⟨"TokenProg"⟩, ⟨⟨"MintA"⟩, ⟨1000⟩⟩, none, ⟨1000⟩⟩ :
      TokenAccountWithAmountAndPrice).price ≠ some 0 :=
  getTokenAccounts_price_never_zero oracleZero decodeA "key" connOne ⟨"Owner"⟩
    none
    [⟨⟨"Acct1"⟩, ⟨"TokenProg"⟩, ⟨⟨"MintA"⟩, ⟨1000⟩⟩, none, ⟨1000⟩⟩]
    (by simp [getTokenAccounts, connOne, enrichLoop, recA, decodeA,
      fetchCoinPrice, tryFetch, oracleZero, PublicKey.toBase58,
      except_ok_bind])
    _ (by simp)

/-- C7: `createPoolKeys` is a pure, deterministic function of its
inputs: every address field listed is copied verbatim from the
corresponding input field, and `lpDecimals`, `version`, `marketVersion`
and `programId` are fixed constants independent of the input. -/
theorem createPoolKeys_copies_and_constants
    (liqAuth : PublicKey → PublicKey)
    (mktAuth : PublicKey → PublicKey → PublicKey)
    (id : PublicKey) (accountData : LiquidityStateV4)
    (m : MinimalMarketLayoutV3) :
    let k := createPoolKeys liqAuth mktAuth id accountData m
    k.id = id ∧
    k.baseMint = accountData.baseMint ∧
    k.quoteMint = accountData.quoteMint ∧
    k.lpMint = accountData.lpMint ∧
    k.openOrders = accountData.openOrders ∧
    k.targetOrders = accountData.targetOrders ∧
    k.baseVault = accountData.baseVault ∧
    k.quoteVault = accountData.quoteVault ∧
    k.marketProgramId = accountData.marketProgramId ∧
    k.marketId = accountData.marketId ∧
    k.withdrawQueue = accountData.withdrawQueue ∧
    k.lpVault = accountData.lpVault ∧
    k.lpDecimals = 5 ∧
    k.version = 4 ∧
    k.marketVersion = 3 ∧
    k.programId = RAYDIUM_LIQUIDITY_PROGRAM_ID_V4 := by
  refine ⟨rfl, rfl, rfl, rfl, rfl, rfl, rfl, rfl, rfl, rfl, rfl, rfl, rfl,
    rfl, rfl, rfl⟩

/-- C9: `marketBaseVault` and `marketQuoteVault` are copied from the
pool state's own `baseVault` / `quoteVault` (never from market account
data), and changing the market-layout argument changes only
`marketBids`, `marketAsks` and `marketEventQueue`. -/
theorem createPoolKeys_market_vaults_from_pool_state
    (liqAuth : PublicKey → PublicKey)
    (mktAuth : PublicKey → PublicKey → PublicKey)
    (id : PublicKey) (accountData : LiquidityStateV4)
    (m mAlt : MinimalMarketLayoutV3) :
    (createPoolKeys liqAuth mktAuth id accountData m).marketBaseVault =
      accountData.baseVault ∧
    (createPoolKeys liqAuth mktAuth id accountData m).marketQuoteVault =
      accountData.quoteVault ∧
    createPoolKeys liqAuth mktAuth id accountData m =
      { createPoolKeys liqAuth mktAuth id accountData mAlt with
        marketBids := m.bids
        marketAsks := m.asks
        marketEventQueue := m.eventQueue } := by
  refine ⟨rfl, rfl, rfl⟩

theorem env_value (env : Env) (hall : allRequiredPresent env) (n : String)
    (hn : n ∈ requiredVars) : ∃ x, env n = some x :=
  Option.isSome_iff_exists.mp (hall n hn)

theorem loadConstants_ok_fields (jsNumber jsParseFloat : String → Option Rat)
    (env : Env) (v : String)
    (hv : env "COMMITMENT_LEVEL" = some v) (hmem : v ∈ possibleCommitments)
    (hall : allRequiredPresent env) :
    ∃ c, loadConstants jsNumber jsParseFloat env = Except.ok c ∧
      c.COMMITMENT_LEVEL = v ∧
      (∀ s, env "MAX_SELL_RETRIES" = some s → c.MAX_SELL_RETRIES = jsNumber s) ∧
      (∀ s, env "SELL_AFTER_GAIN_PERCENTAGE" = some s →
        c.SELL_AFTER_GAIN_PERCENTAGE = jsParseFloat s) := by
  obtain ⟨r, h1⟩ := env_value env hall "RPC_ENDPOINT" (by decide)
  obtain ⟨w, h2⟩ := env_value env hall "RPC_WEBSOCKET_ENDPOINT" (by decide)
  obtain ⟨l, h3⟩ := env_value env hall "LOG_LEVEL" (by decide)
  obtain ⟨ch, h4⟩ := env_value env hall "CHECK_IF_MINT_IS_RENOUNCED" (by decide)
  obtain ⟨m, h5⟩ := env_value env hall "MAX_SELL_RETRIES" (by decide)
  obtain ⟨p, h6⟩ := env_value env hall "PRIVATE_KEY" (by decide)
  obtain ⟨q, h7⟩ := env_value env hall "QUOTE_MINT" (by decide)
  obtain ⟨qa, h8⟩ := env_value env hall "QUOTE_AMOUNT" (by decide)
  obtain ⟨minp, h9⟩ := env_value env hall "MIN_POOL_SIZE" (by decide)
  obtain ⟨maxp, h10⟩ := env_value env hall "MAX_POOL_SIZE" (by decide)
  obtain ⟨o, h11⟩ := env_value env hall "ONE_TOKEN_AT_A_TIME" (by decide)
  obtain ⟨s, h12⟩ := env_value env hall "SELL_AFTER_GAIN_PERCENTAGE" (by decide)
  refine ⟨_, loadConstants_eval jsNumber jsParseFloat env v r w l ch m p q qa
    minp maxp o s hv hmem h1 h2 h3 h4 h5 h6 h7 h8 h9 h10 h11 h12, rfl, ?_, ?_⟩
  · intro x hx
    rw [h5] at hx
    injection hx with hx
    rw [hx]
  · intro x hx
    rw [h12] at hx
    injection hx with hx
    rw [hx]

/-- C6: with `COMMITMENT_LEVEL` outside {processed, confirmed,
finalized}, loading `constants.ts` terminates the process with the
non-zero exit code 1 (so no constants are produced and nothing
importing them can run); with `COMMITMENT_LEVEL` in the set and all
required variables present, loading succeeds. -/
theorem loadConstants_commitment_check
    (jsNumber jsParseFloat : String → Option Rat) (env : Env) (v : String)
    (hv : env "COMMITMENT_LEVEL" = some v) :
    (v ∉ possibleCommitments →
      loadConstants jsNumber jsParseFloat env = Except.error ⟨1⟩ ∧
      (1 : Nat) ≠ 0) ∧
    (v ∈ possibleCommitments → allRequiredPresent env →
      (loadConstants jsNumber jsParseFloat env).isOk = true) := by
  constructor
  · intro hnot
    refine ⟨?_, by norm_num⟩
    simp [loadConstants, retrieveEnvVariable, hv, hnot, except_ok_bind,
      except_error_bind, throw, throwThe, MonadExceptOf.throw]
  · intro hmem hall
    obtain ⟨c, hc, -, -, -⟩ :=
      loadConstants_ok_fields jsNumber jsParseFloat env v hv hmem hall
    rw [hc]
    rfl

/-- A concrete environment defining every variable, with an invalid
commitment level. -/
def envUrgent : Env :=
  fun n => if n = "COMMITMENT_LEVEL" then some "urgent" else some "x"

theorem loadConstants_commitment_check_witness :
    loadConstants (fun _ => none) (fun _ => none) envUrgent =
      Except.error ⟨1⟩ ∧ (1 : Nat) ≠ 0 :=
  (loadConstants_commitment_check (fun _ => none) (fun _ => none) envUrgent
    "urgent" (by simp [envUrgent])).1 (by decide)

/-- C10: configuration loading validates only presence and the
commitment-level enumeration: when every variable is present and the
commitment level is valid, loading completes without terminating the
process, and a `MAX_SELL_RETRIES` or `SELL_AFTER_GAIN_PERCENTAGE` value
on which the JavaScript numeric parse yields `NaN` (modelled `none`)
makes the corresponding exported constant `NaN`. -/
theorem loadConstants_non_numeric_gives_nan
    (jsNumber jsParseFloat : String → Option Rat) (env : Env) (v : String)
    (hv : env "COMMITMENT_LEVEL" = some v) (hmem : v ∈ possibleCommitments)
    (hall : allRequiredPresent env) :
    ∃ c, loadConstants jsNumber jsParseFloat env = Except.ok c ∧
      (∀ s, env "MAX_SELL_RETRIES" = some s → jsNumber s = none →
        c.MAX_SELL_RETRIES = none) ∧
      (∀ s, env "SELL_AFTER_GAIN_PERCENTAGE" = some s → jsParseFloat s = none →
        c.SELL_AFTER_GAIN_PERCENTAGE = none) := by
  obtain ⟨c, hc, -, hmax, hsell⟩ :=
    loadConstants_ok_fields jsNumber jsParseFloat env v hv hmem hall
  refine ⟨c, hc, ?_, ?_⟩
  · intro s hs hnan
    rw [hmax s hs, hnan]
  · intro s hs hnan
    rw [hsell s hs, hnan]

/-- A concrete environment defining every variable, with a valid
commitment level and non-numeric text everywhere else. -/
def envNonNumeric : Env :=
  fun n => if n = "COMMITMENT_LEVEL" then some "finalized" else some "abc"

theorem loadConstants_non_numeric_gives_nan_witness :
    ∃ c, loadConstants (fun _ => none) (fun _ => none) envNonNumeric =
        Except.ok c ∧
      (∀ s, envNonNumeric "MAX_SELL_RETRIES" = some s →
        (fun _ => (none : Option Rat)) s = none → c.MAX_SELL_RETRIES = none) ∧
      (∀ s, envNonNumeric "SELL_AFTER_GAIN_PERCENTAGE" = some s →
        (fun _ => (none : Option Rat)) s = none →
        c.SELL_AFTER_GAIN_PERCENTAGE = none) :=
  loadConstants_non_numeric_gives_nan (fun _ => none) (fun _ => none)
    envNonNumeric "finalized" (by simp [envNonNumeric]) (by decide)
    (by
      intro n hn
      by_cases hcl : n = "COMMITMENT_LEVEL" <;> simp [envNonNumeric, hcl])

end SniperBot
